import Mathlib

/-!
Verification of the TinyML_algo numerical core: a shallow embedding of the
fixed-point primitives, the DOT8 lane engine, the exponential LUT service,
the GEMV software reference, the self-test harness and the quantized
TinyFormer encoder kernel, together with proofs of the specified properties.

Machine integers are embedded as `Nat`/`Int` with explicit `% 2^w` at the
places where the C code performs a narrowing conversion; C signed `>>` is
embedded as floor division (arithmetic shift).
-/

/-- C arithmetic right shift `x >> n` on a signed 32-bit value:
floor division by `2^n`. -/
def asr (x : Int) (n : Nat) : Int := Int.fdiv x (2 ^ n)

/-- C cast `(int8_t)` of an unsigned value: sign-extend the low byte. -/
def sx8 (n : Nat) : Int :=
  if n % 256 < 128 then ((n % 256 : Nat) : Int) else ((n % 256 : Nat) : Int) - 256

/-- C cast `(uint8_t)` of a signed 8-bit value. -/
def u8 (x : Int) : Nat := (x % 256).toNat

/-- C cast `(uint32_t)` of a signed 32-bit value. -/
def u32 (x : Int) : Nat := (x % 4294967296).toNat

/-- C cast `(int16_t)` of a signed 32-bit value: wrap into `[-32768, 32767]`. -/
def wrap16 (x : Int) : Int := (x + 32768) % 65536 - 32768

/-- `saturate_int32_to_int8` from `litex_port/tinyformer.c` (and the identical
copy in `common/demo_runner.c`): clamp an `int32` accumulator to `[-128, 127]`. -/
def saturate_int32_to_int8 (x : Int) : Int :=
  if 127 < x then 127 else if x < -128 then -128 else x

/-! ## DOT8 lane engine (`hw_extensions/dot8/sw/dot8.c`, `dot8.h`) -/

/-- `dot8_pack` from `dot8.h`: pack 4 signed int8 lanes into one `uint32`,
lane 0 in the least-significant byte (the OR of disjoint byte fields is
written as a sum). -/
def dot8_pack (a : Nat → Int) : Nat :=
  u8 (a 0) + u8 (a 1) * 256 + u8 (a 2) * 65536 + u8 (a 3) * 16777216

/-- Lane extraction performed inside `dot8_sw`: `(int8_t)(packed >> 8*i)`. -/
def dot8_unpack (w : Nat) : Nat → Int
  | 0 => sx8 w
  | 1 => sx8 (w / 256)
  | 2 => sx8 (w / 65536)
  | 3 => sx8 (w / 16777216)
  | _ => 0

/-- `dot8_sw` from `dot8.c`: software reference, sum of the four
sign-extended lane products. -/
def dot8_sw (a_packed b_packed : Nat) : Int :=
    sx8 a_packed * sx8 b_packed
  + sx8 (a_packed / 256) * sx8 (b_packed / 256)
  + sx8 (a_packed / 65536) * sx8 (b_packed / 65536)
  + sx8 (a_packed / 16777216) * sx8 (b_packed / 16777216)

/-- `dot8_4_lanes` from `dot8.c`: in the software build (no `USE_DOT8_HW`)
this is exactly `dot8_sw`. -/
def dot8_4_lanes (a_packed b_packed : Nat) : Int := dot8_sw a_packed b_packed

lemma u8_lt (x : Int) : u8 x < 256 := by unfold u8; omega

lemma sx8_u8 (x : Int) (h1 : -128 ≤ x) (h2 : x ≤ 127) : sx8 (u8 x) = x := by
  unfold sx8 u8; split <;> omega

lemma sx8_range (n : Nat) : -128 ≤ sx8 n ∧ sx8 n ≤ 127 := by
  unfold sx8; split <;> omega

lemma sx8_eq_of_mod_eq (m n : Nat) (h : m % 256 = n % 256) : sx8 m = sx8 n := by
  unfold sx8; rw [h]

lemma u8_sx8 (m : Nat) : u8 (sx8 m) = m % 256 := by
  unfold u8 sx8; split <;> omega

/-- The four bytes of a packed word recover the `u8` images of the lanes. -/
lemma dot8_pack_bytes (a : Nat → Int) :
    dot8_pack a % 256 = u8 (a 0) ∧ dot8_pack a / 256 % 256 = u8 (a 1) ∧
    dot8_pack a / 65536 % 256 = u8 (a 2) ∧ dot8_pack a / 16777216 % 256 = u8 (a 3) := by
  have h0 := u8_lt (a 0); have h1 := u8_lt (a 1)
  have h2 := u8_lt (a 2); have h3 := u8_lt (a 3)
  unfold dot8_pack; omega

lemma dot8_unpack_pack (a : Nat → Int) (h : ∀ i, i < 4 → -128 ≤ a i ∧ a i ≤ 127) :
    ∀ i, i < 4 → dot8_unpack (dot8_pack a) i = a i := by
  obtain ⟨e0, e1, e2, e3⟩ := dot8_pack_bytes a
  intro i hi
  interval_cases i
  · show sx8 (dot8_pack a) = a 0
    rw [sx8_eq_of_mod_eq _ (u8 (a 0)) (by have := u8_lt (a 0); omega)]
    exact sx8_u8 _ (h 0 (by norm_num)).1 (h 0 (by norm_num)).2
  · show sx8 (dot8_pack a / 256) = a 1
    rw [sx8_eq_of_mod_eq _ (u8 (a 1)) (by have := u8_lt (a 1); omega)]
    exact sx8_u8 _ (h 1 (by norm_num)).1 (h 1 (by norm_num)).2
  · show sx8 (dot8_pack a / 65536) = a 2
    rw [sx8_eq_of_mod_eq _ (u8 (a 2)) (by have := u8_lt (a 2); omega)]
    exact sx8_u8 _ (h 2 (by norm_num)).1 (h 2 (by norm_num)).2
  · show sx8 (dot8_pack a / 16777216) = a 3
    rw [sx8_eq_of_mod_eq _ (u8 (a 3)) (by have := u8_lt (a 3); omega)]
    exact sx8_u8 _ (h 3 (by norm_num)).1 (h 3 (by norm_num)).2

/-- General correctness of the DOT8 software path on packed in-range lanes:
shared by the DOT8 contract claim and the self-test analysis. -/
lemma dot8_correct (a b : Nat → Int)
    (ha : ∀ i, i < 4 → -128 ≤ a i ∧ a i ≤ 127)
    (hb : ∀ i, i < 4 → -128 ≤ b i ∧ b i ≤ 127) :
    dot8_4_lanes (dot8_pack a) (dot8_pack b) =
      a 0 * b 0 + a 1 * b 1 + a 2 * b 2 + a 3 * b 3 := by
  have la0 := dot8_unpack_pack a ha 0 (by norm_num)
  have la1 := dot8_unpack_pack a ha 1 (by norm_num)
  have la2 := dot8_unpack_pack a ha 2 (by norm_num)
  have la3 := dot8_unpack_pack a ha 3 (by norm_num)
  have lb0 := dot8_unpack_pack b hb 0 (by norm_num)
  have lb1 := dot8_unpack_pack b hb 1 (by norm_num)
  have lb2 := dot8_unpack_pack b hb 2 (by norm_num)
  have lb3 := dot8_unpack_pack b hb 3 (by norm_num)
  simp only [dot8_unpack] at la0 la1 la2 la3 lb0 lb1 lb2 lb3
  unfold dot8_4_lanes dot8_sw
  rw [la0, la1, la2, la3, lb0, lb1, lb2, lb3]

lemma mul_int8_bound (x y : Int) (hx1 : -128 ≤ x) (hx2 : x ≤ 127)
    (hy1 : -128 ≤ y) (hy2 : y ≤ 127) : -16384 ≤ x * y ∧ x * y ≤ 16384 := by
  constructor <;> nlinarith

/-- C3: for every pair of 4-tuples of signed 8-bit lanes,
`dot8_4_lanes (dot8_pack a) (dot8_pack b)` equals the exact integer sum of the
four lane products, and that sum stays within `[-65536, 65536]`, well inside
the signed 32-bit range (no error path, no overflow). -/
theorem dot8_lanes_exact_sum (a b : Nat → Int)
    (ha : ∀ i, i < 4 → -128 ≤ a i ∧ a i ≤ 127)
    (hb : ∀ i, i < 4 → -128 ≤ b i ∧ b i ≤ 127) :
    dot8_4_lanes (dot8_pack a) (dot8_pack b) =
      a 0 * b 0 + a 1 * b 1 + a 2 * b 2 + a 3 * b 3 ∧
    -65536 ≤ a 0 * b 0 + a 1 * b 1 + a 2 * b 2 + a 3 * b 3 ∧
    a 0 * b 0 + a 1 * b 1 + a 2 * b 2 + a 3 * b 3 ≤ 65536 := by
  refine ⟨dot8_correct a b ha hb, ?_, ?_⟩ <;>
  · have p0 := mul_int8_bound (a 0) (b 0) (ha 0 (by norm_num)).1 (ha 0 (by norm_num)).2
      (hb 0 (by norm_num)).1 (hb 0 (by norm_num)).2
    have p1 := mul_int8_bound (a 1) (b 1) (ha 1 (by norm_num)).1 (ha 1 (by norm_num)).2
      (hb 1 (by norm_num)).1 (hb 1 (by norm_num)).2
    have p2 := mul_int8_bound (a 2) (b 2) (ha 2 (by norm_num)).1 (ha 2 (by norm_num)).2
      (hb 2 (by norm_num)).1 (hb 2 (by norm_num)).2
    have p3 := mul_int8_bound (a 3) (b 3) (ha 3 (by norm_num)).1 (ha 3 (by norm_num)).2
      (hb 3 (by norm_num)).1 (hb 3 (by norm_num)).2
    linarith [p0.1, p0.2, p1.1, p1.2, p2.1, p2.2, p3.1, p3.2]

theorem dot8_lanes_exact_sum_witness :
    dot8_4_lanes (dot8_pack fun _ => -128) (dot8_pack fun _ => -128) = 65536 := by
  have h := dot8_lanes_exact_sum (fun _ => -128) (fun _ => -128)
    (fun i _ => ⟨by norm_num, by norm_num⟩) (fun i _ => ⟨by norm_num, by norm_num⟩)
  rw [h.1]; norm_num

/-- C6: pack/unpack round-trip. -/
theorem dot8_pack_unpack_bijection :
    (∀ w : Nat, w < 4294967296 → dot8_pack (dot8_unpack w) = w) ∧
    (∀ a : Nat → Int, (∀ i, i < 4 → -128 ≤ a i ∧ a i ≤ 127) →
      ∀ i, i < 4 → dot8_unpack (dot8_pack a) i = a i) := by
  constructor
  · intro w hw
    show u8 (sx8 w) + u8 (sx8 (w / 256)) * 256 + u8 (sx8 (w / 65536)) * 65536 +
        u8 (sx8 (w / 16777216)) * 16777216 = w
    rw [u8_sx8, u8_sx8, u8_sx8, u8_sx8]; omega
  · exact dot8_unpack_pack

theorem dot8_pack_unpack_bijection_witness :
    dot8_pack (dot8_unpack 305419896) = 305419896 ∧
    dot8_unpack (dot8_pack fun _ => -1) 2 = -1 :=
  ⟨dot8_pack_unpack_bijection.1 305419896 (by norm_num),
   dot8_pack_unpack_bijection.2 (fun _ => -1)
     (fun i _ => ⟨by norm_num, by norm_num⟩) 2 (by norm_num)⟩

/-! ## Exponential LUT service (`litex_port/tinyformer.c`,
`hw_extensions/exp_lut/sw/exp_lut.c`) -/

/-- The 16-entry Q10 `exp_lut` table from `litex_port/tinyformer.c`. -/
def exp_lut_table : List Nat :=
  [1024, 754, 556, 410, 302, 223, 165, 122, 90, 67, 50, 37, 28, 21, 16, 12]

/-- Indexing the encoder's inline `exp_lut[]` array. -/
def exp_lut (i : Nat) : Nat := exp_lut_table.getD i 0

/-- `score_to_exp` from `litex_port/tinyformer.c`: clamp the scaled score to
`[-15, 0]` and look up `exp_lut[-x]`. -/
def score_to_exp (x : Int) : Nat :=
  if 0 < x then exp_lut 0
  else if x < -15 then exp_lut 15
  else exp_lut (-x).toNat

/-- `exp_lut_golden` from `hw_extensions/exp_lut/sw/exp_lut.c`. -/
def exp_lut_golden : List Nat :=
  [1024, 754, 556, 410, 302, 223, 165, 122, 90, 67, 50, 37, 28, 21, 16, 12]

/-- `exp_lut_hw` from `exp_lut.c` in the software build (no `USE_EXP_LUT_HW`):
clamp indices above 15 to the last golden entry, otherwise index the golden
table directly. -/
def exp_lut_hw (idx : Nat) : Nat :=
  if 15 < idx then exp_lut_golden.getD 15 0 else exp_lut_golden.getD idx 0

lemma exp_lut_table_eq_golden : exp_lut_table = exp_lut_golden := rfl

/-- C5: the LUT service clamps out-of-domain operands instead of erroring:
`exp_lut_hw i = golden[i]` for `i ≤ 15` and `golden[15]` for `i > 15`;
`score_to_exp x = golden[-x]` for `x ∈ [-15, 0]`, `golden[0]` for `x > 0`,
and `golden[15]` for `x < -15`. -/
theorem exp_lut_clamp_spec :
    (∀ i : Nat, i ≤ 15 → exp_lut_hw i = exp_lut_golden.getD i 0) ∧
    (∀ i : Nat, 15 < i → exp_lut_hw i = exp_lut_golden.getD 15 0) ∧
    (∀ x : Int, -15 ≤ x → x ≤ 0 → score_to_exp x = exp_lut_golden.getD (-x).toNat 0) ∧
    (∀ x : Int, 0 < x → score_to_exp x = exp_lut_golden.getD 0 0) ∧
    (∀ x : Int, x < -15 → score_to_exp x = exp_lut_golden.getD 15 0) := by
  refine ⟨fun i hi => ?_, fun i hi => ?_, fun x h1 h2 => ?_, fun x hx => ?_, fun x hx => ?_⟩
  · rw [exp_lut_hw, if_neg (by omega)]
  · rw [exp_lut_hw, if_pos hi]
  · rw [score_to_exp, if_neg (by omega), if_neg (by omega), exp_lut,
      exp_lut_table_eq_golden]
  · rw [score_to_exp, if_pos hx, exp_lut, exp_lut_table_eq_golden]
  · rw [score_to_exp, if_neg (by omega), if_pos hx, exp_lut, exp_lut_table_eq_golden]

theorem exp_lut_clamp_spec_witness :
    exp_lut_hw 7 = 122 ∧ exp_lut_hw 99 = 12 ∧ score_to_exp (-3) = 410 ∧
    score_to_exp 5 = 1024 ∧ score_to_exp (-40) = 12 :=
  ⟨by rw [exp_lut_clamp_spec.1 7 (by norm_num)]; rfl,
   by rw [exp_lut_clamp_spec.2.1 99 (by norm_num)]; rfl,
   by rw [exp_lut_clamp_spec.2.2.1 (-3) (by norm_num) (by norm_num)]; rfl,
   by rw [exp_lut_clamp_spec.2.2.2.1 5 (by norm_num)]; rfl,
   by rw [exp_lut_clamp_spec.2.2.2.2 (-40) (by norm_num)]; rfl⟩

/-! ## Generic loop-accumulation lemmas -/

lemma range_foldl_add {M : Type} [AddCommMonoid M] (f : Nat → M) (c : M) (n : Nat) :
    (List.range n).foldl (fun a k => a + f k) c = c + ∑ k ∈ Finset.range n, f k := by
  induction n with
  | zero => simp
  | succ n ih =>
    rw [List.range_succ, List.foldl_append]
    simp [ih, Finset.sum_range_succ, add_assoc]

lemma foldl_congr_mem {α β : Type} (l : List α) (f g : β → α → β) (b : β)
    (h : ∀ acc x, x ∈ l → f acc x = g acc x) : l.foldl f b = l.foldl g b := by
  induction l generalizing b with
  | nil => rfl
  | cons a t ih =>
    simp only [List.foldl_cons]
    rw [h b a (by simp)]
    exact ih _ (fun acc x hx => h acc x (by simp [hx]))

/-! ## GEMV software reference (`litex_port/tests_gemv.c`) -/

/-- `gemv_ref` from `tests_gemv.c`: `Y[i] = Σ_k W[i*len+k] * X[k]` with a
32-bit accumulator, no bias in the self-test, no saturation; modelled as the
value of row `i` (the C function fills rows `i < out_dim`). -/
def gemv_ref (w x : Nat → Int) (out_dim len i : Nat) : Int :=
  (List.range len).foldl (fun acc k => acc + w (i * len + k) * x k) 0

/-- C4: the GEMV software reference computes the exact matrix-vector product
row sums; with int8 operands and `len ∈ {32, 64}` the 32-bit accumulator can
never overflow, and no saturation is applied to the result. -/
theorem gemv_ref_matvec_spec (w x : Nat → Int) (out_dim len i : Nat)
    (hlen : len = 32 ∨ len = 64) (hi : i < out_dim)
    (hw : ∀ n, -128 ≤ w n ∧ w n ≤ 127) (hx : ∀ n, -128 ≤ x n ∧ x n ≤ 127) :
    gemv_ref w x out_dim len i = (∑ k ∈ Finset.range len, w (i * len + k) * x k) ∧
    -2147483648 ≤ gemv_ref w x out_dim len i ∧ gemv_ref w x out_dim len i ≤ 2147483647 := by
  have hsum : gemv_ref w x out_dim len i =
      ∑ k ∈ Finset.range len, w (i * len + k) * x k := by
    rw [gemv_ref, range_foldl_add, zero_add]
  refine ⟨hsum, ?_, ?_⟩ <;> rw [hsum] <;>
  · have habs : |∑ k ∈ Finset.range len, w (i * len + k) * x k| ≤ (len : Int) * 16384 := by
      calc |∑ k ∈ Finset.range len, w (i * len + k) * x k|
          ≤ ∑ k ∈ Finset.range len, |w (i * len + k) * x k| :=
            Finset.abs_sum_le_sum_abs _ _
        _ ≤ ∑ _k ∈ Finset.range len, (16384 : Int) := by
            refine Finset.sum_le_sum fun k _ => ?_
            have hb := mul_int8_bound (w (i * len + k)) (x k)
              (hw _).1 (hw _).2 (hx _).1 (hx _).2
            exact abs_le.mpr ⟨hb.1, hb.2⟩
        _ = (len : Int) * 16384 := by
            rw [Finset.sum_const, Finset.card_range]; ring
    have hlen' : (len : Int) ≤ 64 := by rcases hlen with h | h <;> simp [h]
    have hlen0 : (0 : Int) ≤ (len : Int) := Int.natCast_nonneg len
    have := abs_le.mp habs
    nlinarith [this.1, this.2]

theorem gemv_ref_matvec_spec_witness :
    gemv_ref (fun _ => 1) (fun _ => 2) 32 32 0 =
      (∑ k ∈ Finset.range 32, (fun _ => (1 : Int)) (0 * 32 + k) * (fun _ => (2 : Int)) k) ∧
    gemv_ref (fun _ => 1) (fun _ => 2) 32 32 0 = 64 := by
  have h := gemv_ref_matvec_spec (fun _ => 1) (fun _ => 2) 32 32 0 (Or.inl rfl)
    (by norm_num) (fun n => ⟨by norm_num, by norm_num⟩) (fun n => ⟨by norm_num, by norm_num⟩)
  exact ⟨h.1, by rw [h.1]; decide⟩

/-! ## DOT8 self-test harness (`litex_port/tests_dot8.c`) -/

/-- The LCG state update performed by `lcg_next_int8` in `tests_dot8.c`:
`lcg_state = lcg_state * 1664525u + 1013904223u` on the 32-bit state. -/
def lcg_next (s : Nat) : Nat := (s * 1664525 + 1013904223) % 4294967296

/-- The sample `lcg_next_int8` returns after an update:
`(int8_t)(lcg_state >> 24)`, the sign-extended high byte of the state. -/
def lcg_sample (s : Nat) : Int := sx8 (s / 16777216)

/-- `lcg_next_int8` from `tests_dot8.c`: advance the state and return the new
state's high byte as an int8 sample, paired with the new state. -/
def lcg_next_int8 (s : Nat) : Int × Nat := (lcg_sample (lcg_next s), lcg_next s)

/-- Operand `a[i]` of the `test_dot8` trial that starts at LCG state `s`: the
trial loop draws `a[i] = lcg_next_int8()` then `b[i] = lcg_next_int8()` for
`i = 0..3`, so `a[i]` is the sample after `2*i + 1` state updates. -/
def trial_a (s : Nat) : Nat → Int := fun i => lcg_sample (lcg_next^[2 * i + 1] s)

/-- Operand `b[i]` of the same trial: the sample after `2*i + 2` updates. -/
def trial_b (s : Nat) : Nat → Int := fun i => lcg_sample (lcg_next^[2 * i + 2] s)

/-- One iteration of the `test_dot8` trial loop starting at LCG state `s`:
draw the 8 operands, pack them, compare `hw_dot = dot8_4_lanes(...)` against
the inline scalar reference `sw_dot`; status `-1` on mismatch, else `0`,
paired with the LCG state after the 8 draws. -/
def test_dot8_trial (s : Nat) : Int × Nat :=
  (if dot8_4_lanes (dot8_pack (trial_a s)) (dot8_pack (trial_b s)) ≠
        trial_a s 0 * trial_b s 0 + trial_a s 1 * trial_b s 1 +
        trial_a s 2 * trial_b s 2 + trial_a s 3 * trial_b s 3
   then -1 else 0, lcg_next^[8] s)

/-- The iteration structure of `test_dot8` from `tests_dot8.c`, generic in
the per-trial step: run `n` trials threading the LCG state, return `-1`
immediately at the first failing trial (no retry), and `0` once all trials
have passed. -/
def test_dot8_loop (step : Nat → Int × Nat) : Nat → Nat → Int × Nat
  | 0, s => (0, s)
  | n + 1, s =>
    if (step s).1 ≠ 0 then (-1, (step s).2) else test_dot8_loop step n (step s).2


lemma test_dot8_trial_ok (s : Nat) : (test_dot8_trial s).1 = 0 := by
  have h := dot8_correct (trial_a s) (trial_b s)
    (fun i _ => sx8_range _) (fun i _ => sx8_range _)
  simp only [test_dot8_trial]
  rw [if_neg (by simp only [h]; exact fun hh => hh rfl)]

lemma test_dot8_trial_state (s : Nat) : (test_dot8_trial s).2 = lcg_next^[8] s := rfl

/-- C8: the `test_dot8` harness draws its operands from the LCG
`state * 1664525 + 1013904223` (high byte of each new state as the next int8
sample); a mismatching trial would make the loop return `-1` immediately with
no retry; every trial in fact agrees (the software path is the scalar
reference itself), each trial consumes exactly 8 LCG samples, and the
`NITER = 1000` run from the fixed seed `lcg_state = 1` — which is what
`test_dot8` executes — returns status 0. -/
theorem test_dot8_spec :
    (∀ step : Nat → Int × Nat, ∀ n s, (step s).1 ≠ 0 →
      test_dot8_loop step (n + 1) s = (-1, (step s).2)) ∧
    (∀ n s, test_dot8_loop test_dot8_trial n s = (0, lcg_next^[8 * n] s)) ∧
    test_dot8_loop test_dot8_trial 1000 1 = (0, lcg_next^[8 * 1000] 1) := by
  have main : ∀ n s, test_dot8_loop test_dot8_trial n s = (0, lcg_next^[8 * n] s) := by
    intro n
    induction n with
    | zero => intro s; rfl
    | succ n ih =>
      intro s
      rw [test_dot8_loop, if_neg (by simp [test_dot8_trial_ok s])]
      have h3 : 8 * (n + 1) = 8 * n + 8 := by ring
      rw [test_dot8_trial_state, ih (lcg_next^[8] s), ← Function.iterate_add_apply, h3]
  refine ⟨fun step n s h => ?_, main, main 1000 1⟩
  rw [test_dot8_loop, if_pos h]

theorem test_dot8_spec_witness :
    test_dot8_loop (fun s => (1, s)) 1 5 = (-1, 5) :=
  test_dot8_spec.1 (fun s => (1, s)) 0 5 (by decide)
/-! ## GEMV driver (`hw_extensions/gemv/sw/gemv.c`) -/

/-- One device-register access issued by the GEMV driver: a CTRL write, a
streamed X/W/B element write, a STATUS read, a Y read, or a Y-advance pulse. -/
inductive GemvAccess where
  | write_ctrl (v : Nat)
  | write_x (v : Nat)
  | write_w (v : Nat)
  | write_b (v : Nat)
  | read_status
  | read_y
  | write_y_next

/-- `GEMV_CTRL_CLEAR_DONE` (bit 3) from `gemv.h`. -/
def GEMV_CTRL_CLEAR_DONE : Nat := 8

/-- `gemv_load_x` from `gemv.c`: a NULL buffer produces no accesses;
otherwise one `X_IN` write per element, cast through `(uint8_t)`. -/
def gemv_load_x : Option (Nat → Int) → Nat → List GemvAccess
  | none, _ => []
  | some x, len => (List.range len).map fun i => GemvAccess.write_x (u8 (x i))

/-- `gemv_load_w` from `gemv.c`: NULL produces no accesses; otherwise
`out_dim * len` `W_IN` writes. -/
def gemv_load_w : Option (Nat → Int) → Nat → Nat → List GemvAccess
  | none, _, _ => []
  | some w, out_dim, len =>
    (List.range (out_dim * len)).map fun i => GemvAccess.write_w (u8 (w i))

/-- `gemv_load_b` from `gemv.c`: NULL produces no accesses; otherwise
`out_dim` `B_IN` writes, cast through `(uint32_t)`. -/
def gemv_load_b : Option (Nat → Int) → Nat → List GemvAccess
  | none, _ => []
  | some b, out_dim => (List.range out_dim).map fun i => GemvAccess.write_b (u32 (b i))

/-- `gemv_read_y` from `gemv.c`: a NULL output buffer produces no accesses;
otherwise `out_dim` read-then-advance pairs on `Y_OUT`/`Y_NEXT`. -/
def gemv_read_y : Option (Nat → Int) → Nat → List GemvAccess
  | none, _ => []
  | some _, out_dim =>
    (List.range out_dim).foldr (fun _ acc => GemvAccess.read_y :: GemvAccess.write_y_next :: acc) []

/-- Modelled from the spec: the GEMV hardware block itself is not part of the
C sources. Per spec §3/§4.4 each of the X/W/B write streams and the Y read
stream has an implicit position counter, advanced by one on the corresponding
stream access and reset by a `clear_done` CTRL pulse (bit 3). -/
structure GemvCursors where
  x_cur : Nat
  w_cur : Nat
  b_cur : Nat
  y_cur : Nat

/-- Modelled from the spec: the effect of one register access on the device
stream cursors (§4.4: Y advances only on the explicit next-pulse, not on a
read; `clear_done` resets every cursor). -/
def gemvStep (c : GemvCursors) : GemvAccess → GemvCursors
  | GemvAccess.write_ctrl v =>
    if v / 8 % 2 = 1 then { x_cur := 0, w_cur := 0, b_cur := 0, y_cur := 0 } else c
  | GemvAccess.write_x _ => { c with x_cur := c.x_cur + 1 }
  | GemvAccess.write_w _ => { c with w_cur := c.w_cur + 1 }
  | GemvAccess.write_b _ => { c with b_cur := c.b_cur + 1 }
  | GemvAccess.read_status => c
  | GemvAccess.read_y => c
  | GemvAccess.write_y_next => { c with y_cur := c.y_cur + 1 }

/-- Run a driver-call access trace against the device cursors. -/
def gemvRun (c : GemvCursors) (l : List GemvAccess) : GemvCursors := l.foldl gemvStep c

/-- C10: every GEMV driver call taking a buffer pointer returns immediately
on NULL, issuing no device register access at all and therefore leaving the
device stream cursors untouched. -/
theorem gemv_driver_null_spec (len out_dim : Nat) (c : GemvCursors) :
    gemv_load_x none len = [] ∧ gemv_load_w none out_dim len = [] ∧
    gemv_load_b none out_dim = [] ∧ gemv_read_y none out_dim = [] ∧
    gemvRun c (gemv_load_x none len) = c ∧ gemvRun c (gemv_load_w none out_dim len) = c ∧
    gemvRun c (gemv_load_b none out_dim) = c ∧ gemvRun c (gemv_read_y none out_dim) = c :=
  ⟨rfl, rfl, rfl, rfl, rfl, rfl, rfl, rfl⟩

/-! ## TinyFormer encoder kernel (`litex_port/tinyformer.c`) -/

/-- Placeholder weights of the default build (`USE_TRAINED_WEIGHTS` off):
`W_q[D][D]` is all-zero, embedded flattened row-major. -/
def W_q : Nat → Int := fun _ => 0

/-- All-zero placeholder `W_k`. -/
def W_k : Nat → Int := fun _ => 0

/-- All-zero placeholder `W_v`. -/
def W_v : Nat → Int := fun _ => 0

/-- All-zero placeholder `W_o`. -/
def W_o : Nat → Int := fun _ => 0

/-- All-zero placeholder `W_ff1[FFN][D]`, flattened row-major. -/
def W_ff1 : Nat → Int := fun _ => 0

/-- All-zero placeholder `W_ff2[D][FFN]`, flattened row-major. -/
def W_ff2 : Nat → Int := fun _ => 0

/-- All-zero placeholder bias `b_q` (and likewise below). -/
def b_q : Nat → Int := fun _ => 0

/-- All-zero placeholder bias `b_k`. -/
def b_k : Nat → Int := fun _ => 0

/-- All-zero placeholder bias `b_v`. -/
def b_v : Nat → Int := fun _ => 0

/-- All-zero placeholder bias `b_o`. -/
def b_o : Nat → Int := fun _ => 0

/-- All-zero placeholder bias `b_ff1`. -/
def b_ff1 : Nat → Int := fun _ => 0

/-- All-zero placeholder bias `b_ff2`. -/
def b_ff2 : Nat → Int := fun _ => 0

/-- `matvec_i8_i32_acc` from `tinyformer.c`: for output row `od`,
`acc = b[od] + Σ_id W[od*d_in + id] * in[id]` in an int32 accumulator, then
`saturate(acc >> 7)`. -/
def matvec_i8_i32_acc (inp : Nat → Int) (W : Nat → Int) (b : Nat → Int)
    (d_in od : Nat) : Int :=
  saturate_int32_to_int8
    (asr ((List.range d_in).foldl (fun acc id => acc + W (od * d_in + id) * inp id) (b od)) 7)

/-- `linear_projection_all` from `tinyformer.c`: apply the matvec to every
token row (`d_in = d_out = TINYFORMER_D = 32`). -/
def linear_projection_all (src : Nat → Nat → Int) (W b : Nat → Int) :
    Nat → Nat → Int :=
  fun s od => matvec_i8_i32_acc (src s) W b 32 od

/-- `scores[j]` in `attention_single_head`: `dot(Q[i], K[j]) >> 5`. -/
def attn_score (q k : Nat → Nat → Int) (i j : Nat) : Int :=
  asr ((List.range 32).foldl (fun acc d => acc + q i d * k j d) 0) 5

/-- `max_score`: the running maximum over the 16 scores, seeded with
`-2147483647`. -/
def attn_max (q k : Nat → Nat → Int) (i : Nat) : Int :=
  (List.range 16).foldl (fun m j => max m (attn_score q k i j)) (-2147483647)

/-- `exp_buf[j]`: `score_to_exp((int16_t)((scores[j] - max_score) >> 3))`. -/
def attn_exp (q k : Nat → Nat → Int) (i j : Nat) : Nat :=
  score_to_exp (wrap16 (asr (attn_score q k i j - attn_max q k i) 3))

/-- `sum_exp` before the zero guard: the uint32 sum of the 16 `exp_buf`
values (never overflows: at most `16 * 1024`). -/
def attn_sum_raw (q k : Nat → Nat → Int) (i : Nat) : Nat :=
  (List.range 16).foldl (fun a j => a + attn_exp q k i j) 0

/-- `sum_exp` after the division-by-zero guard (`if (sum_exp == 0) sum_exp = 1`). -/
def attn_sum (q k : Nat → Nat → Int) (i : Nat) : Nat :=
  if attn_sum_raw q k i = 0 then 1 else attn_sum_raw q k i

/-- `w_q15 = (uint16_t)(((uint32_t)exp_buf[j] << 15) / sum_exp)` (truncating
unsigned division, then a uint16 cast). -/
def attn_wq15 (q k : Nat → Nat → Int) (i j : Nat) : Nat :=
  attn_exp q k i j * 32768 / attn_sum q k i % 65536

/-- `attention_single_head` from `tinyformer.c`:
`context[i][d] = saturate(Σ_j ((w_q15 * V[j][d]) >> 15))`, the Q15 shift
applied per term inside the accumulation. -/
def attention_single_head (q k v : Nat → Nat → Int) : Nat → Nat → Int :=
  fun i d => saturate_int32_to_int8
    ((List.range 16).foldl
      (fun acc j => acc + asr ((attn_wq15 q k i j : Int) * v j d) 15) 0)

/-- First FFN layer of `ffn_apply`: `acc = b_ff1[d] + Σ W_ff1[d][k]*in[s][k]`,
`acc >>= 7`, then ReLU before the int8 saturation. -/
def ffn_layer1 (inp : Nat → Nat → Int) (s d : Nat) : Int :=
  let acc := asr ((List.range 32).foldl
    (fun a k => a + W_ff1 (d * 32 + k) * inp s k) (b_ff1 d)) 7
  if acc < 0 then 0 else saturate_int32_to_int8 acc

/-- Second FFN layer of `ffn_apply`: `saturate((b_ff2[d] + Σ W_ff2[d][k]*hidden[s][k]) >> 7)`. -/
def ffn_layer2 (hidden : Nat → Nat → Int) (s d : Nat) : Int :=
  saturate_int32_to_int8
    (asr ((List.range 64).foldl
      (fun a k => a + W_ff2 (d * 64 + k) * hidden s k) (b_ff2 d)) 7)

/-- `ffn_apply` from `tinyformer.c`: hidden layer then output layer. -/
def ffn_apply (inp : Nat → Nat → Int) : Nat → Nat → Int :=
  ffn_layer2 (ffn_layer1 inp)

/-- Steps 1-2 of `tinyformer_encode`: the Q/K/V projections of the input
feeding the streaming single-head attention (`attn_out` before the output
projection). -/
def tinyformer_ctx (input : Nat → Nat → Int) : Nat → Nat → Int :=
  attention_single_head
    (linear_projection_all input W_q b_q)
    (linear_projection_all input W_k b_k)
    (linear_projection_all input W_v b_v)

/-- Step 3 of `tinyformer_encode`: output projection of the attention
context plus the residual, saturated (`attn_out` after step 3). -/
def tinyformer_y (input : Nat → Nat → Int) : Nat → Nat → Int :=
  fun s d => saturate_int32_to_int8
    (input s d + linear_projection_all (tinyformer_ctx input) W_o b_o s d)

/-- `tinyformer_encode` from `tinyformer.c`: Q/K/V projections, streaming
single-head attention, output projection with residual (steps 1-3), then
FFN with residual (step 4). -/
def tinyformer_encode (input : Nat → Nat → Int) : Nat → Nat → Int :=
  fun s d => saturate_int32_to_int8
    (tinyformer_y input s d + ffn_apply (tinyformer_y input) s d)

/-- The `ENC_CKSUM` checksum from `common/demo_runner.c`: uint32 sum of the
`(uint8_t)` casts of all 16×32 output bytes. -/
def enc_cksum (m : Nat → Nat → Int) : Nat :=
  (List.range 16).foldl (fun a s =>
    (List.range 32).foldl (fun a2 d => (a2 + u8 (m s d)) % 4294967296) a) 0

lemma attn_sum_raw_eq (q k : Nat → Nat → Int) (i : Nat) :
    attn_sum_raw q k i = ∑ j ∈ Finset.range 16, attn_exp q k i j := by
  unfold attn_sum_raw
  rw [range_foldl_add, Nat.zero_add]

lemma attn_exp_le_sum_raw (q k : Nat → Nat → Int) (i j : Nat) (hj : j < 16) :
    attn_exp q k i j ≤ attn_sum_raw q k i := by
  rw [attn_sum_raw_eq]
  exact Finset.single_le_sum (fun m _ => Nat.zero_le (attn_exp q k i m))
    (Finset.mem_range.mpr hj)

lemma attn_wq15_eq (q k : Nat → Nat → Int) (i j : Nat) (hj : j < 16) :
    attn_wq15 q k i j = attn_exp q k i j * 32768 / attn_sum q k i := by
  unfold attn_wq15
  apply Nat.mod_eq_of_lt
  have hle : attn_exp q k i j ≤ attn_sum q k i := by
    have h := attn_exp_le_sum_raw q k i j hj
    unfold attn_sum
    split <;> omega
  have hpos : 0 < attn_sum q k i := by unfold attn_sum; split <;> omega
  have hdiv : attn_exp q k i j * 32768 / attn_sum q k i ≤ 32768 := by
    calc attn_exp q k i j * 32768 / attn_sum q k i
        ≤ attn_sum q k i * 32768 / attn_sum q k i :=
          Nat.div_le_div_right (Nat.mul_le_mul_right 32768 hle)
      _ = 32768 := Nat.mul_div_cancel_left 32768 hpos
  omega

/-- C2: for every query position `i` and output dimension `d`, the attention
context value is the saturation of the sum over the 16 key positions of the
truncated Q15 weight `(exp_buf[j] << 15) / sum_exp` times `V[j][d]`,
right-shifted by 15 per term before accumulation (the uint16 cast of the
weight is lossless since the quotient is at most `2^15`). -/
theorem attention_context_q15_formula (q k v : Nat → Nat → Int) (i d : Nat) :
    attention_single_head q k v i d =
      saturate_int32_to_int8 (∑ j ∈ Finset.range 16,
        asr (((attn_exp q k i j * 32768 / attn_sum q k i : Nat) : Int) * v j d) 15) := by
  unfold attention_single_head
  rw [range_foldl_add, zero_add]
  congr 1
  refine Finset.sum_congr rfl fun j hj => ?_
  rw [attn_wq15_eq q k i j (Finset.mem_range.mp hj)]

lemma exp_lut_mem_range (n : Nat) (hn : n ≤ 15) :
    12 ≤ exp_lut n ∧ exp_lut n ≤ 1024 := by
  interval_cases n <;> exact ⟨by decide, by decide⟩

lemma score_to_exp_range (x : Int) : 12 ≤ score_to_exp x ∧ score_to_exp x ≤ 1024 := by
  unfold score_to_exp
  split
  · exact ⟨by decide, by decide⟩
  · split
    · exact ⟨by decide, by decide⟩
    · exact exp_lut_mem_range _ (by omega)

/-- C9: for every input, the softmax denominator `sum_exp` before the zero
guard lies in `[192, 16384]` (it is a sum of 16 LUT values, each in
`[12, 1024]`), so the guard branch substituting 1 never fires and the guarded
`sum_exp` equals the raw sum. -/
theorem attention_sum_exp_bounds (q k : Nat → Nat → Int) (i : Nat) :
    192 ≤ attn_sum_raw q k i ∧ attn_sum_raw q k i ≤ 16384 ∧
    attn_sum q k i = attn_sum_raw q k i := by
  have hlo : 192 ≤ attn_sum_raw q k i := by
    rw [attn_sum_raw_eq]
    calc (192 : Nat) = 16 * 12 := by norm_num
      _ ≤ ∑ j ∈ Finset.range 16, attn_exp q k i j := by
          rw [← Finset.card_range 16, ← smul_eq_mul]
          exact Finset.card_nsmul_le_sum (Finset.range 16) _ 12
            (fun j _ => (score_to_exp_range _).1)
  have hhi : attn_sum_raw q k i ≤ 16384 := by
    rw [attn_sum_raw_eq]
    calc ∑ j ∈ Finset.range 16, attn_exp q k i j
        ≤ (Finset.range 16).card • 1024 :=
          Finset.sum_le_card_nsmul (Finset.range 16) _ 1024
            (fun j _ => (score_to_exp_range _).2)
      _ = 16384 := by simp
  refine ⟨hlo, hhi, ?_⟩
  unfold attn_sum
  rw [if_neg (by omega)]

lemma asr_zero (n : Nat) : asr 0 n = 0 := by
  unfold asr; exact Int.zero_fdiv _

lemma saturate_zero : saturate_int32_to_int8 0 = 0 := by decide

lemma saturate_id (x : Int) (h1 : -128 ≤ x) (h2 : x ≤ 127) :
    saturate_int32_to_int8 x = x := by
  unfold saturate_int32_to_int8
  rw [if_neg (by omega), if_neg (by omega)]

lemma matvec_zero (inp : Nat → Int) (W b : Nat → Int) (od : Nat)
    (hW : ∀ n, W n = 0) (hb : ∀ n, b n = 0) :
    matvec_i8_i32_acc inp W b 32 od = 0 := by
  unfold matvec_i8_i32_acc
  rw [range_foldl_add, hb od,
    Finset.sum_congr rfl (fun id _ => by rw [hW (od * 32 + id), zero_mul]),
    Finset.sum_const_zero, zero_add, asr_zero, saturate_zero]

lemma proj_Wo_zero (src : Nat → Nat → Int) (s od : Nat) :
    linear_projection_all src W_o b_o s od = 0 :=
  matvec_zero _ _ _ _ (fun _ => rfl) (fun _ => rfl)

lemma proj_Wv_zero (src : Nat → Nat → Int) (s od : Nat) :
    linear_projection_all src W_v b_v s od = 0 :=
  matvec_zero _ _ _ _ (fun _ => rfl) (fun _ => rfl)

lemma attention_zero_v (q k v : Nat → Nat → Int)
    (hv : ∀ s t, s < 16 → v s t = 0) (i d : Nat) :
    attention_single_head q k v i d = 0 := by
  unfold attention_single_head
  rw [range_foldl_add, zero_add,
    Finset.sum_congr rfl (fun j hj => by
      rw [hv j d (Finset.mem_range.mp hj), mul_zero, asr_zero]),
    Finset.sum_const_zero, saturate_zero]

lemma tinyformer_ctx_zero (x : Nat → Nat → Int) (s d : Nat) :
    tinyformer_ctx x s d = 0 := by
  unfold tinyformer_ctx
  exact attention_zero_v _ _ _ (fun s t _ => proj_Wv_zero x s t) s d

lemma tinyformer_y_id (x : Nat → Nat → Int)
    (hx : ∀ s d, s < 16 → d < 32 → -128 ≤ x s d ∧ x s d ≤ 127)
    (s d : Nat) (hs : s < 16) (hd : d < 32) : tinyformer_y x s d = x s d := by
  unfold tinyformer_y
  rw [proj_Wo_zero, add_zero, saturate_id _ (hx s d hs hd).1 (hx s d hs hd).2]

lemma ffn_layer1_zero (inp : Nat → Nat → Int) (s d : Nat) :
    ffn_layer1 inp s d = 0 := by
  unfold ffn_layer1
  rw [range_foldl_add]
  have hz : (b_ff1 d + ∑ id ∈ Finset.range 32, W_ff1 (d * 32 + id) * inp s id) = 0 := by
    rw [show b_ff1 d = 0 from rfl,
      Finset.sum_congr rfl (fun id _ => by rw [show W_ff1 (d * 32 + id) = 0 from rfl, zero_mul]),
      Finset.sum_const_zero, zero_add]
  rw [hz, asr_zero]
  norm_num [saturate_zero]

lemma ffn_layer2_zero (hidden : Nat → Nat → Int) (s d : Nat) :
    ffn_layer2 hidden s d = 0 := by
  unfold ffn_layer2
  rw [range_foldl_add,
    show b_ff2 d = 0 from rfl,
    Finset.sum_congr rfl (fun id _ => by rw [show W_ff2 (d * 64 + id) = 0 from rfl, zero_mul]),
    Finset.sum_const_zero, zero_add, asr_zero, saturate_zero]

lemma tinyformer_encode_id (x : Nat → Nat → Int)
    (hx : ∀ s d, s < 16 → d < 32 → -128 ≤ x s d ∧ x s d ≤ 127) :
    ∀ s d, s < 16 → d < 32 → tinyformer_encode x s d = x s d := by
  intro s d hs hd
  unfold tinyformer_encode ffn_apply
  rw [ffn_layer2_zero, add_zero, tinyformer_y_id x hx s d hs hd,
    saturate_id _ (hx s d hs hd).1 (hx s d hs hd).2]

lemma foldl_zero_acc {α : Type} (l : List α) (f : Nat → α → Nat)
    (h : ∀ x, f 0 x = 0) : l.foldl f 0 = 0 := by
  induction l with
  | nil => rfl
  | cons a t ih => rw [List.foldl_cons, h a]; exact ih

lemma enc_cksum_congr (m m' : Nat → Nat → Int)
    (h : ∀ s d, s < 16 → d < 32 → m s d = m' s d) : enc_cksum m = enc_cksum m' := by
  unfold enc_cksum
  refine foldl_congr_mem _ _ _ _ fun a s hs => ?_
  refine foldl_congr_mem _ _ _ _ fun a2 d hd => ?_
  rw [h s d (List.mem_range.mp hs) (List.mem_range.mp hd)]

lemma enc_cksum_zero : enc_cksum (fun _ _ => 0) = 0 := by
  unfold enc_cksum
  refine foldl_zero_acc _ _ fun s => ?_
  refine foldl_zero_acc _ _ fun d => ?_
  show (0 + u8 0) % 4294967296 = 0
  decide

/-- C1: with the default all-zero placeholder weights, the encoder output
equals the input for every 16×32 int8 token matrix (all projection and FFN
contributions are zero, so only the two residual paths remain); in
particular the all-zero input maps to the all-zero output, whose
`ENC_CKSUM` byte-sum checksum is 0. -/
theorem tinyformer_encode_identity_default_weights (x : Nat → Nat → Int)
    (hx : ∀ s d, s < 16 → d < 32 → -128 ≤ x s d ∧ x s d ≤ 127) :
    (∀ s d, s < 16 → d < 32 → tinyformer_encode x s d = x s d) ∧
    enc_cksum (tinyformer_encode fun _ _ => 0) = 0 := by
  refine ⟨tinyformer_encode_id x hx, ?_⟩
  have hz := tinyformer_encode_id (fun _ _ => 0)
    (fun s d _ _ => ⟨by norm_num, by norm_num⟩)
  rw [enc_cksum_congr _ (fun _ _ => 0) (fun s d hs hd => hz s d hs hd)]
  exact enc_cksum_zero

theorem tinyformer_encode_identity_default_weights_witness :
    tinyformer_encode (fun _ _ => 0) 0 0 = 0 ∧
    enc_cksum (tinyformer_encode fun _ _ => 0) = 0 :=
  ⟨(tinyformer_encode_identity_default_weights (fun _ _ => 0)
      (fun s d _ _ => ⟨by norm_num, by norm_num⟩)).1 0 0 (by norm_num) (by norm_num),
   (tinyformer_encode_identity_default_weights (fun _ _ => 0)
      (fun s d _ _ => ⟨by norm_num, by norm_num⟩)).2⟩

/-! ## Stateful encoder model: the global working buffers of `tinyformer.c`
(`q_buf`, `k_buf`, `v_buf`, `attn_out`, `ffn_hidden`, `ffn_out`, `scores`,
`exp_buf`) are mutated in place across calls; this model threads them
explicitly so that the absence of stale-state influence can be proved. -/

/-- The eight global working buffers of `tinyformer.c`. -/
inductive EncBuf where
  | q_buf | k_buf | v_buf | attn_out | ffn_hidden | ffn_out | scores | exp_buf
deriving DecidableEq

/-- The mutable store: each buffer is indexed by a (row, column) pair; the
1-D `scores`/`exp_buf` arrays use row 0. -/
def EncState : Type := EncBuf → Nat × Nat → Int

/-- A single array-element store `buf[p] = v`. -/
def writeBuf (σ : EncState) (b : EncBuf) (p : Nat × Nat) (v : Int) : EncState :=
  fun b' p' => if b' = b ∧ p' = p then v else σ b' p'

/-- A C `for` loop that stores `body σ p` into `b[p]` for each index `p` in
order, reading each body from the current state. -/
def writeLoop (b : EncBuf) (ps : List (Nat × Nat))
    (body : EncState → Nat × Nat → Int) (σ : EncState) : EncState :=
  ps.foldl (fun τ p => writeBuf τ b p (body τ p)) σ

/-- Index set of a `[16][32]` buffer. -/
def gridSD : List (Nat × Nat) :=
  (List.range 16).flatMap fun s => (List.range 32).map fun d => (s, d)

/-- Index set of the `[16][64]` hidden buffer. -/
def gridSF : List (Nat × Nat) :=
  (List.range 16).flatMap fun s => (List.range 64).map fun d => (s, d)

/-- Index set of the 1-D `scores`/`exp_buf` arrays. -/
def rowJ : List (Nat × Nat) := (List.range 16).map fun j => (0, j)

/-- Index set of row `i` of `attn_out`. -/
def rowD (i : Nat) : List (Nat × Nat) := (List.range 32).map fun d => (i, d)

lemma mem_gridSD (s d : Nat) : (s, d) ∈ gridSD ↔ s < 16 ∧ d < 32 := by
  unfold gridSD
  rw [List.mem_flatMap]
  constructor
  · rintro ⟨a, ha, hm⟩
    rw [List.mem_map] at hm
    obtain ⟨e, he, heq⟩ := hm
    injection heq with h1 h2
    subst h1; subst h2
    exact ⟨List.mem_range.mp ha, List.mem_range.mp he⟩
  · rintro ⟨hs, hd⟩
    exact ⟨s, List.mem_range.mpr hs, List.mem_map.mpr ⟨d, List.mem_range.mpr hd, rfl⟩⟩

lemma mem_gridSF (s d : Nat) : (s, d) ∈ gridSF ↔ s < 16 ∧ d < 64 := by
  unfold gridSF
  rw [List.mem_flatMap]
  constructor
  · rintro ⟨a, ha, hm⟩
    rw [List.mem_map] at hm
    obtain ⟨e, he, heq⟩ := hm
    injection heq with h1 h2
    subst h1; subst h2
    exact ⟨List.mem_range.mp ha, List.mem_range.mp he⟩
  · rintro ⟨hs, hd⟩
    exact ⟨s, List.mem_range.mpr hs, List.mem_map.mpr ⟨d, List.mem_range.mpr hd, rfl⟩⟩

lemma mem_rowJ (a j : Nat) : (a, j) ∈ rowJ ↔ a = 0 ∧ j < 16 := by
  unfold rowJ
  rw [List.mem_map]
  constructor
  · rintro ⟨e, he, heq⟩
    injection heq with h1 h2
    subst h2
    exact ⟨h1.symm, List.mem_range.mp he⟩
  · rintro ⟨h0, hj⟩
    exact ⟨j, List.mem_range.mpr hj, by rw [h0]⟩

lemma mem_rowD (i a d : Nat) : (a, d) ∈ rowD i ↔ a = i ∧ d < 32 := by
  unfold rowD
  rw [List.mem_map]
  constructor
  · rintro ⟨e, he, heq⟩
    injection heq with h1 h2
    subst h2
    exact ⟨h1.symm, List.mem_range.mp he⟩
  · rintro ⟨h0, hd⟩
    exact ⟨d, List.mem_range.mpr hd, by rw [h0]⟩

/-- Two stores agree on every location in the region `R`. -/
def AgreeOn (R : EncBuf → Nat × Nat → Prop) (σ τ : EncState) : Prop :=
  ∀ b p, R b p → σ b p = τ b p

lemma agree_mono (R R' : EncBuf → Nat × Nat → Prop) (σ τ : EncState)
    (hsub : ∀ b p, R' b p → R b p) (h : AgreeOn R σ τ) : AgreeOn R' σ τ :=
  fun b p hp => h b p (hsub b p hp)

lemma writeLoop_not_written (b : EncBuf) (ps : List (Nat × Nat))
    (body : EncState → Nat × Nat → Int) (σ : EncState) (b' : EncBuf)
    (p : Nat × Nat) (h : b' ≠ b ∨ p ∉ ps) :
    writeLoop b ps body σ b' p = σ b' p := by
  induction ps generalizing σ with
  | nil => rfl
  | cons a t ih =>
    show writeLoop b t body (writeBuf σ b a (body σ a)) b' p = σ b' p
    rw [ih _ (by rcases h with h | h; · exact Or.inl h
                 · exact Or.inr fun hm => h (List.mem_cons_of_mem _ hm))]
    unfold writeBuf
    rw [if_neg]
    rintro ⟨rfl, rfl⟩
    rcases h with h | h
    · exact h rfl
    · exact h (List.mem_cons_self _ _)

/-- Lock-step agreement through a write loop: if the two bodies produce equal
values whenever the stores agree on `R`, then after both loops the stores
agree on `R` together with everything the loop wrote. -/
lemma writeLoop_agree (R : EncBuf → Nat × Nat → Prop) (b : EncBuf)
    (ps : List (Nat × Nat)) (body body' : EncState → Nat × Nat → Int)
    (hbody : ∀ σ τ p, p ∈ ps → AgreeOn R σ τ → body σ p = body' τ p) :
    ∀ σ τ, AgreeOn R σ τ →
      AgreeOn (fun b' p => R b' p ∨ (b' = b ∧ p ∈ ps))
        (writeLoop b ps body σ) (writeLoop b ps body' τ) := by
  induction ps with
  | nil =>
    intro σ τ h b' p hp
    rcases hp with hp | ⟨_, hp⟩
    · exact h b' p hp
    · simp at hp
  | cons a t ih =>
    intro σ τ h
    have hval : body σ a = body' τ a := hbody σ τ a (List.mem_cons_self _ _) h
    have h1 : AgreeOn R (writeBuf σ b a (body σ a)) (writeBuf τ b a (body' τ a)) := by
      intro b' p hp
      unfold writeBuf
      split
      · exact hval
      · exact h b' p hp
    have hrec := ih (fun σ' τ' p hp => hbody σ' τ' p (List.mem_cons_of_mem _ hp)) _ _ h1
    intro b' p hp
    show writeLoop b t body (writeBuf σ b a (body σ a)) b' p =
      writeLoop b t body' (writeBuf τ b a (body' τ a)) b' p
    rcases hp with hp | ⟨heq, hp⟩
    · exact hrec b' p (Or.inl hp)
    · subst heq
      rcases List.mem_cons.mp hp with heq2 | hp
      · subst heq2
        by_cases hpt : p ∈ t
        · exact hrec b' p (Or.inr ⟨rfl, hpt⟩)
        · rw [writeLoop_not_written _ _ _ _ _ _ (Or.inr hpt),
            writeLoop_not_written _ _ _ _ _ _ (Or.inr hpt)]
          unfold writeBuf
          rw [if_pos ⟨rfl, rfl⟩, if_pos ⟨rfl, rfl⟩]
          exact hval
      · exact hrec b' p (Or.inr ⟨rfl, hp⟩)

lemma mem_gridSD' (p : Nat × Nat) : p ∈ gridSD ↔ p.1 < 16 ∧ p.2 < 32 := by
  obtain ⟨s, d⟩ := p; exact mem_gridSD s d

lemma mem_gridSF' (p : Nat × Nat) : p ∈ gridSF ↔ p.1 < 16 ∧ p.2 < 64 := by
  obtain ⟨s, d⟩ := p; exact mem_gridSF s d

lemma mem_rowJ' (p : Nat × Nat) : p ∈ rowJ ↔ p.1 = 0 ∧ p.2 < 16 := by
  obtain ⟨a, j⟩ := p; exact mem_rowJ a j

lemma mem_rowD' (i : Nat) (p : Nat × Nat) : p ∈ rowD i ↔ p.1 = i ∧ p.2 < 32 := by
  obtain ⟨a, d⟩ := p; exact mem_rowD i a d

/-- Attention loop 1 for query `i`: store `scores[j] = dot(Q[i], K[j]) >> 5`
reading the `q_buf`/`k_buf` buffers. -/
def attn_scores_st (i : Nat) (σ : EncState) : EncState :=
  writeLoop EncBuf.scores rowJ
    (fun τ p => asr ((List.range 32).foldl
      (fun acc d => acc + τ EncBuf.q_buf (i, d) * τ EncBuf.k_buf (p.2, d)) 0) 5) σ

/-- The running `max_score` over the stored scores (seeded `-2147483647`). -/
def attn_max_st (σ : EncState) : Int :=
  (List.range 16).foldl (fun mm j => max mm (σ EncBuf.scores (0, j))) (-2147483647)

/-- Attention loop 2: store `exp_buf[j]` from the stored score and the max. -/
def attn_exp_st (σ : EncState) : EncState :=
  writeLoop EncBuf.exp_buf rowJ
    (fun τ p => ((score_to_exp (wrap16 (asr (τ EncBuf.scores (0, p.2) - attn_max_st σ) 3)) : Nat) : Int)) σ

/-- The uint32 `sum_exp` accumulated from the stored `exp_buf` values. -/
def attn_sum_raw_st (σ : EncState) : Nat :=
  (List.range 16).foldl (fun a j => a + (σ EncBuf.exp_buf (0, j)).toNat) 0

/-- `sum_exp` after the zero guard. -/
def attn_sum_st (σ : EncState) : Nat :=
  if attn_sum_raw_st σ = 0 then 1 else attn_sum_raw_st σ

/-- Attention loop 3 for query `i`: store the context row into `attn_out`
reading `exp_buf` and `v_buf`. -/
def attn_ctx_st (i : Nat) (σ : EncState) : EncState :=
  writeLoop EncBuf.attn_out (rowD i)
    (fun τ p => saturate_int32_to_int8 ((List.range 16).foldl
      (fun acc j => acc + asr
        ((((τ EncBuf.exp_buf (0, j)).toNat * 32768 / attn_sum_st σ % 65536 : Nat) : Int)
          * τ EncBuf.v_buf (j, p.2)) 15) 0)) σ

/-- One full query iteration of `attention_single_head` on the store. -/
def attn_query_st (i : Nat) (σ : EncState) : EncState :=
  attn_ctx_st i (attn_exp_st (attn_scores_st i σ))

/-- Step 1 of `tinyformer_encode`: fill `q_buf` from the input. -/
def enc_q_st (input : Nat → Nat → Int) (σ : EncState) : EncState :=
  writeLoop EncBuf.q_buf gridSD
    (fun _ p => matvec_i8_i32_acc (input p.1) W_q b_q 32 p.2) σ

/-- Fill `k_buf` from the input. -/
def enc_k_st (input : Nat → Nat → Int) (σ : EncState) : EncState :=
  writeLoop EncBuf.k_buf gridSD
    (fun _ p => matvec_i8_i32_acc (input p.1) W_k b_k 32 p.2) σ

/-- Fill `v_buf` from the input. -/
def enc_v_st (input : Nat → Nat → Int) (σ : EncState) : EncState :=
  writeLoop EncBuf.v_buf gridSD
    (fun _ p => matvec_i8_i32_acc (input p.1) W_v b_v 32 p.2) σ

/-- Step 2: the attention loop over all 16 query positions. -/
def enc_attn_st (σ : EncState) : EncState :=
  (List.range 16).foldl (fun τ i => attn_query_st i τ) σ

/-- Step 3a: output projection of `attn_out`, reusing `q_buf` as scratch. -/
def enc_oproj_st (σ : EncState) : EncState :=
  writeLoop EncBuf.q_buf gridSD
    (fun τ p => matvec_i8_i32_acc (fun id => τ EncBuf.attn_out (p.1, id)) W_o b_o 32 p.2) σ

/-- Step 3b: residual `attn_out[s][d] = saturate(input + q_buf)`. -/
def enc_resid_st (input : Nat → Nat → Int) (σ : EncState) : EncState :=
  writeLoop EncBuf.attn_out gridSD
    (fun τ p => saturate_int32_to_int8 (input p.1 p.2 + τ EncBuf.q_buf p)) σ

/-- Step 4a: first FFN layer into `ffn_hidden`, reading `attn_out`. -/
def enc_ffn1_st (σ : EncState) : EncState :=
  writeLoop EncBuf.ffn_hidden gridSF
    (fun τ p => ffn_layer1 (fun s t => τ EncBuf.attn_out (s, t)) p.1 p.2) σ

/-- Step 4b: second FFN layer into `ffn_out`, reading `ffn_hidden`. -/
def enc_ffn2_st (σ : EncState) : EncState :=
  writeLoop EncBuf.ffn_out gridSD
    (fun τ p => ffn_layer2 (fun s t => τ EncBuf.ffn_hidden (s, t)) p.1 p.2) σ

/-- The final buffer state of one `tinyformer_encode` call started in `σ`. -/
def enc_final_st (σ : EncState) (input : Nat → Nat → Int) : EncState :=
  enc_ffn2_st (enc_ffn1_st (enc_resid_st input
    (enc_oproj_st (enc_attn_st (enc_v_st input (enc_k_st input (enc_q_st input σ)))))))

/-- `tinyformer_encode` on the explicit store: the final store together with
the output matrix `saturate(attn_out + ffn_out)`. -/
def tinyformer_encode_st (σ : EncState) (input : Nat → Nat → Int) :
    EncState × (Nat → Nat → Int) :=
  (enc_final_st σ input, fun s d => saturate_int32_to_int8
    (enc_final_st σ input EncBuf.attn_out (s, d) + enc_final_st σ input EncBuf.ffn_out (s, d)))

lemma matvec_congr (inp1 inp2 W b : Nat → Int) (od : Nat)
    (h : ∀ id, id < 32 → inp1 id = inp2 id) :
    matvec_i8_i32_acc inp1 W b 32 od = matvec_i8_i32_acc inp2 W b 32 od := by
  unfold matvec_i8_i32_acc
  rw [foldl_congr_mem _ _ (fun acc id => acc + W (od * 32 + id) * inp2 id) _
    (fun acc id hid => by rw [h id (List.mem_range.mp hid)])]

lemma ffn_layer1_congr (inp1 inp2 : Nat → Nat → Int) (s d : Nat)
    (h : ∀ t, t < 32 → inp1 s t = inp2 s t) :
    ffn_layer1 inp1 s d = ffn_layer1 inp2 s d := by
  unfold ffn_layer1
  rw [foldl_congr_mem _ _ (fun a k => a + W_ff1 (d * 32 + k) * inp2 s k) _
    (fun a k hk => by rw [h k (List.mem_range.mp hk)])]

lemma ffn_layer2_congr (h1 h2 : Nat → Nat → Int) (s d : Nat)
    (h : ∀ t, t < 64 → h1 s t = h2 s t) :
    ffn_layer2 h1 s d = ffn_layer2 h2 s d := by
  unfold ffn_layer2
  rw [foldl_congr_mem _ _ (fun a k => a + W_ff2 (d * 64 + k) * h2 s k) _
    (fun a k hk => by rw [h k (List.mem_range.mp hk)])]

lemma attn_scores_st_agree (R : EncBuf → Nat × Nat → Prop) (i : Nat) (hi : i < 16)
    (hq : ∀ s t, s < 16 → t < 32 → R EncBuf.q_buf (s, t))
    (hk : ∀ s t, s < 16 → t < 32 → R EncBuf.k_buf (s, t))
    (σ τ : EncState) (h : AgreeOn R σ τ) :
    AgreeOn (fun b p => R b p ∨ (b = EncBuf.scores ∧ p ∈ rowJ))
      (attn_scores_st i σ) (attn_scores_st i τ) := by
  unfold attn_scores_st
  refine writeLoop_agree R _ rowJ _ _ ?_ σ τ h
  intro σ' τ' p hp hag
  have hp2 : p.2 < 16 := ((mem_rowJ' p).mp hp).2
  rw [foldl_congr_mem _ _
    (fun acc d => acc + τ' EncBuf.q_buf (i, d) * τ' EncBuf.k_buf (p.2, d)) _
    (fun acc d hd => by
      rw [hag EncBuf.q_buf (i, d) (hq i d hi (List.mem_range.mp hd)),
        hag EncBuf.k_buf (p.2, d) (hk p.2 d hp2 (List.mem_range.mp hd))])]

lemma attn_exp_st_agree (R : EncBuf → Nat × Nat → Prop)
    (hsc : ∀ j, j < 16 → R EncBuf.scores (0, j))
    (σ τ : EncState) (h : AgreeOn R σ τ) :
    AgreeOn (fun b p => R b p ∨ (b = EncBuf.exp_buf ∧ p ∈ rowJ))
      (attn_exp_st σ) (attn_exp_st τ) := by
  unfold attn_exp_st
  have hmax : attn_max_st σ = attn_max_st τ := by
    unfold attn_max_st
    exact foldl_congr_mem _ _ _ _
      (fun mm j hj => by rw [h EncBuf.scores (0, j) (hsc j (List.mem_range.mp hj))])
  refine writeLoop_agree R _ rowJ _ _ ?_ σ τ h
  intro σ' τ' p hp hag
  rw [hag EncBuf.scores (0, p.2) (hsc p.2 ((mem_rowJ' p).mp hp).2), hmax]

lemma attn_ctx_st_agree (R : EncBuf → Nat × Nat → Prop) (i : Nat)
    (hexp : ∀ j, j < 16 → R EncBuf.exp_buf (0, j))
    (hv : ∀ s t, s < 16 → t < 32 → R EncBuf.v_buf (s, t))
    (σ τ : EncState) (h : AgreeOn R σ τ) :
    AgreeOn (fun b p => R b p ∨ (b = EncBuf.attn_out ∧ p ∈ rowD i))
      (attn_ctx_st i σ) (attn_ctx_st i τ) := by
  unfold attn_ctx_st
  have hsum : attn_sum_st σ = attn_sum_st τ := by
    unfold attn_sum_st attn_sum_raw_st
    rw [foldl_congr_mem _ _ (fun a j => a + (τ EncBuf.exp_buf (0, j)).toNat) _
      (fun a j hj => by rw [h EncBuf.exp_buf (0, j) (hexp j (List.mem_range.mp hj))])]
  refine writeLoop_agree R _ (rowD i) _ _ ?_ σ τ h
  intro σ' τ' p hp hag
  have hp2 : p.2 < 32 := ((mem_rowD' i p).mp hp).2
  rw [foldl_congr_mem _ _
    (fun acc j => acc + asr
      ((((τ' EncBuf.exp_buf (0, j)).toNat * 32768 / attn_sum_st τ % 65536 : Nat) : Int)
        * τ' EncBuf.v_buf (j, p.2)) 15) _
    (fun acc j hj => by
      rw [hag EncBuf.exp_buf (0, j) (hexp j (List.mem_range.mp hj)),
        hag EncBuf.v_buf (j, p.2) (hv j p.2 (List.mem_range.mp hj) hp2), hsum])]

lemma attn_query_st_agree (R : EncBuf → Nat × Nat → Prop) (i : Nat) (hi : i < 16)
    (hq : ∀ s t, s < 16 → t < 32 → R EncBuf.q_buf (s, t))
    (hk : ∀ s t, s < 16 → t < 32 → R EncBuf.k_buf (s, t))
    (hv : ∀ s t, s < 16 → t < 32 → R EncBuf.v_buf (s, t))
    (σ τ : EncState) (h : AgreeOn R σ τ) :
    AgreeOn (fun b p => R b p ∨ (b = EncBuf.attn_out ∧ p ∈ rowD i))
      (attn_query_st i σ) (attn_query_st i τ) := by
  unfold attn_query_st
  have h1 := attn_scores_st_agree R i hi hq hk σ τ h
  have h2 := attn_exp_st_agree _
    (fun j hj => Or.inr ⟨rfl, (mem_rowJ 0 j).mpr ⟨rfl, hj⟩⟩) _ _ h1
  have h3 := attn_ctx_st_agree _ i
    (fun j hj => Or.inr ⟨rfl, (mem_rowJ 0 j).mpr ⟨rfl, hj⟩⟩)
    (fun s t hs ht => Or.inl (Or.inl (hv s t hs ht))) _ _ h2
  refine agree_mono _ _ _ _ ?_ h3
  intro b p hp
  rcases hp with hp | hp
  · exact Or.inl (Or.inl (Or.inl hp))
  · exact Or.inr hp

/-- The agreement region after processing the query rows in `L`. -/
def Rattn (R : EncBuf → Nat × Nat → Prop) (L : List Nat) : EncBuf → Nat × Nat → Prop :=
  fun b p => R b p ∨ (b = EncBuf.attn_out ∧ p.1 ∈ L ∧ p.2 < 32)

lemma attn_fold_agree (R : EncBuf → Nat × Nat → Prop)
    (hq : ∀ s t, s < 16 → t < 32 → R EncBuf.q_buf (s, t))
    (hk : ∀ s t, s < 16 → t < 32 → R EncBuf.k_buf (s, t))
    (hv : ∀ s t, s < 16 → t < 32 → R EncBuf.v_buf (s, t)) :
    ∀ (Q L : List Nat), (∀ i ∈ Q, i < 16) → ∀ σ τ, AgreeOn (Rattn R L) σ τ →
      AgreeOn (Rattn R (Q ++ L))
        (Q.foldl (fun υ i => attn_query_st i υ) σ)
        (Q.foldl (fun υ i => attn_query_st i υ) τ) := by
  intro Q
  induction Q with
  | nil => intro L _ σ τ h; exact h
  | cons i Q' ih =>
    intro L hQ σ τ h
    have hstep := attn_query_st_agree (Rattn R L) i (hQ i (List.mem_cons_self _ _))
      (fun s t hs ht => Or.inl (hq s t hs ht))
      (fun s t hs ht => Or.inl (hk s t hs ht))
      (fun s t hs ht => Or.inl (hv s t hs ht)) σ τ h
    have hstep' : AgreeOn (Rattn R (i :: L)) (attn_query_st i σ) (attn_query_st i τ) := by
      refine agree_mono _ _ _ _ ?_ hstep
      intro b p hp
      rcases hp with hp | ⟨hb, hm, hd⟩
      · exact Or.inl (Or.inl hp)
      · rcases List.mem_cons.mp hm with heq | hm
        · exact Or.inr ⟨hb, (mem_rowD' i p).mpr ⟨heq, hd⟩⟩
        · exact Or.inl (Or.inr ⟨hb, hm, hd⟩)
    have hres := ih (i :: L) (fun j hj => hQ j (List.mem_cons_of_mem _ hj)) _ _ hstep'
    refine agree_mono _ _ _ _ ?_ hres
    intro b p hp
    rcases hp with hp | ⟨hb, hm, hd⟩
    · exact Or.inl hp
    · refine Or.inr ⟨hb, ?_, hd⟩
      simp only [List.mem_append, List.mem_cons] at hm ⊢
      tauto

/-- The region holding the Q/K/V projection results. -/
def Rqkv : EncBuf → Nat × Nat → Prop := fun b p =>
  (b = EncBuf.q_buf ∨ b = EncBuf.k_buf ∨ b = EncBuf.v_buf) ∧ p ∈ gridSD

set_option maxRecDepth 8192 in
set_option maxHeartbeats 1000000 in
/-- C7: `tinyformer_encode` is deterministic across calls: whatever values
the global working buffers (`q_buf`, `k_buf`, `v_buf`, `attn_out`,
`ffn_hidden`, `ffn_out`, `scores`, `exp_buf`) hold when a call starts —
e.g. values left by a previous call — the output matrix is the same, so two
back-to-back calls on the same input produce bit-identical outputs. -/
theorem tinyformer_encode_no_stale_state (σ σ' : EncState) (x : Nat → Nat → Int)
    (s d : Nat) (hs : s < 16) (hd : d < 32) :
    (tinyformer_encode_st σ x).2 s d = (tinyformer_encode_st σ' x).2 s d := by
  have h0 : AgreeOn (fun _ _ => False) σ σ' := fun b p hp => hp.elim
  have h1 := writeLoop_agree (fun _ _ => False) EncBuf.q_buf gridSD
    (fun _ p => matvec_i8_i32_acc (x p.1) W_q b_q 32 p.2)
    (fun _ p => matvec_i8_i32_acc (x p.1) W_q b_q 32 p.2)
    (fun _ _ _ _ _ => rfl) σ σ' h0
  have h2 := writeLoop_agree _ EncBuf.k_buf gridSD
    (fun _ p => matvec_i8_i32_acc (x p.1) W_k b_k 32 p.2)
    (fun _ p => matvec_i8_i32_acc (x p.1) W_k b_k 32 p.2)
    (fun _ _ _ _ _ => rfl) _ _ h1
  have h3 := writeLoop_agree _ EncBuf.v_buf gridSD
    (fun _ p => matvec_i8_i32_acc (x p.1) W_v b_v 32 p.2)
    (fun _ p => matvec_i8_i32_acc (x p.1) W_v b_v 32 p.2)
    (fun _ _ _ _ _ => rfl) _ _ h2
  have h3' : AgreeOn (Rattn Rqkv []) (enc_v_st x (enc_k_st x (enc_q_st x σ)))
      (enc_v_st x (enc_k_st x (enc_q_st x σ'))) := by
    refine agree_mono _ _ _ _ ?_ h3
    intro b p hp
    rcases hp with ⟨hb, hm⟩ | ⟨_, hm, _⟩
    · rcases hb with rfl | rfl | rfl
      · exact Or.inl (Or.inl (Or.inr ⟨rfl, hm⟩))
      · exact Or.inl (Or.inr ⟨rfl, hm⟩)
      · exact Or.inr ⟨rfl, hm⟩
    · simp at hm
  have h4 := attn_fold_agree Rqkv
    (fun a t ha ht => ⟨Or.inl rfl, (mem_gridSD a t).mpr ⟨ha, ht⟩⟩)
    (fun a t ha ht => ⟨Or.inr (Or.inl rfl), (mem_gridSD a t).mpr ⟨ha, ht⟩⟩)
    (fun a t ha ht => ⟨Or.inr (Or.inr rfl), (mem_gridSD a t).mpr ⟨ha, ht⟩⟩)
    (List.range 16) [] (fun i hi => List.mem_range.mp hi) _ _ h3'
  have h4' : AgreeOn (fun b p => Rqkv b p ∨ (b = EncBuf.attn_out ∧ p ∈ gridSD))
      (enc_attn_st (enc_v_st x (enc_k_st x (enc_q_st x σ))))
      (enc_attn_st (enc_v_st x (enc_k_st x (enc_q_st x σ')))) := by
    refine agree_mono _ _ _ _ ?_ h4
    intro b p hp
    rcases hp with hp | ⟨hb, hm⟩
    · exact Or.inl hp
    · refine Or.inr ⟨hb, ?_, ((mem_gridSD' p).mp hm).2⟩
      simp only [List.mem_append, List.mem_range]
      exact Or.inl ((mem_gridSD' p).mp hm).1
  have h5 := writeLoop_agree _ EncBuf.q_buf gridSD
    (fun τ p => matvec_i8_i32_acc (fun id => τ EncBuf.attn_out (p.1, id)) W_o b_o 32 p.2)
    (fun τ p => matvec_i8_i32_acc (fun id => τ EncBuf.attn_out (p.1, id)) W_o b_o 32 p.2)
    (fun σ₁ τ₁ p hp hag => matvec_congr _ _ _ _ _ (fun id hid =>
      hag EncBuf.attn_out (p.1, id)
        (Or.inr ⟨rfl, (mem_gridSD p.1 id).mpr ⟨((mem_gridSD' p).mp hp).1, hid⟩⟩)))
    _ _ h4'
  have h6 := writeLoop_agree _ EncBuf.attn_out gridSD
    (fun τ p => saturate_int32_to_int8 (x p.1 p.2 + τ EncBuf.q_buf p))
    (fun τ p => saturate_int32_to_int8 (x p.1 p.2 + τ EncBuf.q_buf p))
    (fun σ₁ τ₁ p hp hag => by
      show saturate_int32_to_int8 (x p.1 p.2 + σ₁ EncBuf.q_buf p) =
        saturate_int32_to_int8 (x p.1 p.2 + τ₁ EncBuf.q_buf p)
      rw [hag EncBuf.q_buf p (Or.inr ⟨rfl, hp⟩)])
    _ _ h5
  have h7 := writeLoop_agree _ EncBuf.ffn_hidden gridSF
    (fun τ p => ffn_layer1 (fun a t => τ EncBuf.attn_out (a, t)) p.1 p.2)
    (fun τ p => ffn_layer1 (fun a t => τ EncBuf.attn_out (a, t)) p.1 p.2)
    (fun σ₁ τ₁ p hp hag => ffn_layer1_congr _ _ p.1 p.2 (fun t ht =>
      hag EncBuf.attn_out (p.1, t)
        (Or.inr ⟨rfl, (mem_gridSD p.1 t).mpr ⟨((mem_gridSF' p).mp hp).1, ht⟩⟩)))
    _ _ h6
  have h8 := writeLoop_agree _ EncBuf.ffn_out gridSD
    (fun τ p => ffn_layer2 (fun a t => τ EncBuf.ffn_hidden (a, t)) p.1 p.2)
    (fun τ p => ffn_layer2 (fun a t => τ EncBuf.ffn_hidden (a, t)) p.1 p.2)
    (fun σ₁ τ₁ p hp hag => ffn_layer2_congr _ _ p.1 p.2 (fun t ht =>
      hag EncBuf.ffn_hidden (p.1, t)
        (Or.inr ⟨rfl, (mem_gridSF p.1 t).mpr ⟨((mem_gridSD' p).mp hp).1, ht⟩⟩)))
    _ _ h7
  have hA : enc_final_st σ x EncBuf.attn_out (s, d) =
      enc_final_st σ' x EncBuf.attn_out (s, d) :=
    h8 EncBuf.attn_out (s, d)
      (Or.inl (Or.inl (Or.inr ⟨rfl, (mem_gridSD s d).mpr ⟨hs, hd⟩⟩)))
  have hF : enc_final_st σ x EncBuf.ffn_out (s, d) =
      enc_final_st σ' x EncBuf.ffn_out (s, d) :=
    h8 EncBuf.ffn_out (s, d) (Or.inr ⟨rfl, (mem_gridSD s d).mpr ⟨hs, hd⟩⟩)
  show saturate_int32_to_int8
      (enc_final_st σ x EncBuf.attn_out (s, d) + enc_final_st σ x EncBuf.ffn_out (s, d)) =
    saturate_int32_to_int8
      (enc_final_st σ' x EncBuf.attn_out (s, d) + enc_final_st σ' x EncBuf.ffn_out (s, d))
  rw [hA, hF]

theorem tinyformer_encode_no_stale_state_witness :
    (tinyformer_encode_st (fun _ _ => 0) fun _ _ => 0).2 0 0 =
    (tinyformer_encode_st (fun _ _ => 37) fun _ _ => 0).2 0 0 :=
  tinyformer_encode_no_stale_state (fun _ _ => 0) (fun _ _ => 37) (fun _ _ => 0)
    0 0 (by norm_num) (by norm_num)
